import Mathlib

/-!
Verification of the job execution engine of the cartesi-chainlink-js local
automation simulator.

The definitions below are a shallow embedding of the TypeScript sources:

* `src/src/simulator/jobs.ts` — the `CustomLogicJob` class (block-driven
  interval jobs) and the `LogTriggerJob` class (log-driven jobs), embedded as
  explicit trace-producing functions; the awaited chain-client calls
  (`getBlock`, `checkUpkeep`, `callStatic.checkLog`, `performUpkeep` followed
  by `tx.wait`) are supplied by environment records of type `LogChainEnv` /
  `CustomEnv`.  Byte strings such as `"0x..."` payloads are modelled as
  `List Nat` (one entry per byte, `[]` for `"0x"`), 32-byte words (topics,
  hashes used as words) as `Nat`.
* `src/src/simulator/registry.ts` — the `UpkeepRegistry` class, its `Map` of
  jobs embedded as an insertion-ordered association list with unique keys.

Interleaving of several in-flight invocations of `CustomLogicJob._onNewBlock`
is modelled by a small-step machine (`stepTask` / `runSched`): each task is
one handler invocation, its program counter sits at the `await` suspension
points of the source, and a schedule picks which task runs its next
synchronous segment.  The transaction submission and the following
`tx.wait()` are modelled as a single suspension returning either the receipt
or an error, since no engine-visible state changes between them.
-/

/-- One byte string, one entry per byte; `[]` stands for `"0x"`. -/
abbrev Bytes := List Nat

/-- An ethers.js log object as delivered to the subscription callback.
Topics are 32-byte words modelled as `Nat`. -/
structure EthLog where
  transactionHash : String
  logIndex : Nat
  blockNumber : Nat
  blockHash : String
  address : String
  topics : List Nat
  data : Bytes
deriving DecidableEq, Repr

/-- The part of an ethers.js block object the engine reads. -/
structure EthBlock where
  timestamp : Nat
deriving DecidableEq, Repr

/-- An ethers.js error as inspected by the fallback probe: an optional
structured `code` string and a `message` string. -/
structure EthError where
  code : Option String
  message : String
deriving DecidableEq, Repr

/-- The 8-field tuple passed to the modern `checkLog` call
(`ILogAutomation`), built in `LogTriggerJob._onLogDetected`. -/
structure LogStruct where
  index : Nat
  timestamp : Nat
  txHash : String
  blockNumber : Nat
  blockHash : String
  source : String
  topics : List Nat
  data : Bytes
deriving DecidableEq, Repr

/-- Construction of the `logStruct` literal in `_onLogDetected`. -/
def mkLogStruct (log : EthLog) (block : EthBlock) : LogStruct :=
  { index := log.logIndex
    timestamp := block.timestamp
    txHash := log.transactionHash
    blockNumber := log.blockNumber
    blockHash := log.blockHash
    source := log.address
    topics := log.topics
    data := log.data }

/-- The options record `CreateUpkeepOptions` from `src/src/interfaces.ts`,
flattened (TypeScript uses a structural union; `triggerType` is kept as a
string so the registry's unsupported-trigger branch is expressible; absent
optional strings are the empty string, matching the falsiness test used by
the registry). -/
structure UpkeepOptions where
  name : String
  upkeepContract : String
  triggerType : String
  gasLimit : Nat
  checkData : Option Bytes
  logEmitterAddress : String
  logEventSignature : String
  logTopicFilters : Option (List (Option Nat))
deriving DecidableEq, Repr

/-- Does `sub` match at the head of `l`? (helper for the JS
`String.prototype.includes` model). -/
def leadMatches : List Char → List Char → Bool
  | [], _ => true
  | _ :: _, [] => false
  | a :: as, b :: bs => a == b && leadMatches as bs

/-- Does `sub` occur contiguously anywhere in `l`? -/
def containsSeq (sub : List Char) : List Char → Bool
  | [] => leadMatches sub []
  | c :: rest => leadMatches sub (c :: rest) || containsSeq sub rest

/-- JS `msg.includes(sub)`. -/
def includesSub (msg sub : String) : Bool :=
  containsSeq sub.toList msg.toList

/-- The error test of the probe in `_onLogDetected`:
`code === 'INVALID_ARGUMENT' || msg.includes('checkLog is not a function')`. -/
def isUnknownFunctionError (e : EthError) : Bool :=
  e.code == some "INVALID_ARGUMENT" ||
    includesSub e.message "checkLog is not a function"

/-- Big-endian byte expansion of `n` into `k` bytes (`n` truncated mod
`256 ^ k`, as the ABI word writer does). -/
def beBytes (k : Nat) (n : Nat) : Bytes :=
  (List.range k).map (fun i => n / 256 ^ (k - 1 - i) % 256)

/-- A 32-byte ABI word. -/
def word32 (n : Nat) : Bytes := beBytes 32 n

/-- Right-pad a byte string with zeros to a multiple of 32 bytes. -/
def padRight32 (bs : Bytes) : Bytes :=
  bs ++ List.replicate ((32 - bs.length % 32) % 32) 0

/-- `ethers.utils.defaultAbiCoder.encode(['bytes32[]','bytes'],
[topics, data])`: two head words holding the tail offsets, then the
length-headed topics array, then the length-headed padded data. -/
def abiEncodeTopicsData (topics : List Nat) (data : Bytes) : Bytes :=
  word32 64 ++ word32 (64 + 32 * (1 + topics.length)) ++
    word32 topics.length ++ (topics.map word32).flatten ++
    word32 data.length ++ padRight32 data

/-- One awaited chain interaction performed by `_onLogDetected`, recorded in
the handler's trace. -/
inductive LogAction where
  | getBlock (height : Nat)
  | checkLog (ls : LogStruct) (checkData : Bytes)
  | checkUpkeep (payload : Bytes)
  | performUpkeep (data : Bytes) (gasLimit : Nat)
deriving DecidableEq, Repr

/-- The chain client as seen by `_onLogDetected`; each field is one awaited
call that either resolves or rejects.  `performUpkeep` covers the
transaction submission together with the following `tx.wait()` and resolves
to the receipt's transaction hash. -/
structure LogChainEnv where
  getBlock : Nat → Except EthError EthBlock
  checkLog : LogStruct → Bytes → Except EthError (Bool × Bytes)
  checkUpkeep : Bytes → Except EthError (Bool × Bytes)
  performUpkeep : Bytes → Nat → Except EthError String

/-- The inner `try` body of the probe: fetch the block, build the
`LogStruct` and attempt the modern `checkLog` call with empty `checkData`;
an error of either awaited call falls to the probe's `catch`. -/
def probeModern (env : LogChainEnv) (log : EthLog) :
    List LogAction × Except EthError (Bool × Bytes) :=
  match env.getBlock log.blockNumber with
  | .error e => ([.getBlock log.blockNumber], .error e)
  | .ok block =>
    let ls := mkLogStruct log block
    ([.getBlock log.blockNumber, .checkLog ls []], env.checkLog ls [])

/-- The probe together with its `catch`: an unknown-function failure falls
back to the legacy `checkUpkeep` call with the ABI-encoded
`(topics, data)` payload; any other failure is re-thrown. -/
def runCheckPhase (env : LogChainEnv) (log : EthLog) :
    List LogAction × Except EthError (Bool × Bytes) :=
  match probeModern env log with
  | (t, .ok r) => (t, .ok r)
  | (t, .error e) =>
    if isUnknownFunctionError e then
      let payload := abiEncodeTopicsData log.topics log.data
      (t ++ [.checkUpkeep payload], env.checkUpkeep payload)
    else
      (t, .error e)

/-- `LogTriggerJob._onLogDetected` for one delivered log: the check phase,
then — when upkeep is needed — the `performUpkeep` submission with the
job's gas limit.  The outer `catch` is the second component: `some e`
means the error was caught and logged at the event boundary; the handler
itself always returns normally.  Note the handler keeps no per-job state:
the class has no dedup set, so nothing is threaded between deliveries. -/
def onLogDetected (env : LogChainEnv) (opts : UpkeepOptions) (log : EthLog) :
    List LogAction × Option EthError :=
  match runCheckPhase env log with
  | (t, .error e) => (t, some e)
  | (t, .ok (upkeepNeeded, performData)) =>
    if upkeepNeeded then
      match env.performUpkeep performData opts.gasLimit with
      | .ok _ => (t ++ [.performUpkeep performData opts.gasLimit], none)
      | .error e => (t ++ [.performUpkeep performData opts.gasLimit], some e)
    else
      (t, none)

/-- Sequential delivery of a list of logs to the same job: one handler run
per delivery, traces concatenated (the class keeps no state between runs). -/
def runDeliveries (env : LogChainEnv) (opts : UpkeepOptions)
    (logs : List EthLog) : List LogAction :=
  (logs.map (fun l => (onLogDetected env opts l).1)).flatten

/-- The payloads of the legacy `checkUpkeep` calls in a trace. -/
def legacyPayloads (t : List LogAction) : List Bytes :=
  t.filterMap (fun a =>
    match a with
    | .checkUpkeep p => some p
    | _ => none)

/-- The number of `performUpkeep` submissions in a trace. -/
def performCount (t : List LogAction) : Nat :=
  t.countP (fun a =>
    match a with
    | .performUpkeep _ _ => true
    | _ => false)

/-- The ethers event filter object built in the `LogTriggerJob`
constructor; `topics` entries are `none` for a wildcard slot. -/
structure EventFilter where
  address : String
  topics : List (Option Nat)
deriving DecidableEq, Repr

/-- The filter literal of the `LogTriggerJob` constructor:
`{ address: logEmitterAddress, topics: [ethers.utils.id(logEventSignature)] }`.
The keccak-based `ethers.utils.id` is external and passed in as `idFn`. -/
def mkEventFilter (idFn : String → Nat) (opts : UpkeepOptions) : EventFilter :=
  { address := opts.logEmitterAddress
    topics := [some (idFn opts.logEventSignature)] }

/-- Modelled from the spec (for comparison only, not from the source): the
event filter as the specification describes it — topic0 is the event
signature hash and up to 3 further slots are taken from the configured
indexed-field filters, wildcard (`none`) where unconfigured. -/
def specEventFilter (idFn : String → Nat) (opts : UpkeepOptions) : EventFilter :=
  { address := opts.logEmitterAddress
    topics :=
      some (idFn opts.logEventSignature) ::
        (opts.logTopicFilters.getD []).take 3 }

/-- Program counter of one in-flight invocation of
`CustomLogicJob._onNewBlock`, positioned at the `await` suspension points
of the source.  `performing` remembers the perform data of the cycle;
`finished` remembers whether the invocation was dropped by the
`_isExecuting` guard. -/
inductive TickPhase where
  | entry
  | checking
  | performing (data : Bytes)
  | finished (dropped : Bool)
deriving DecidableEq, Repr

/-- One invocation of `_onNewBlock`: the block number the provider passed
(used only for logging in the source) and the current program counter. -/
structure TickTask where
  blockNumber : Nat
  phase : TickPhase
deriving DecidableEq, Repr

/-- One awaited chain interaction of `_onNewBlock`, recorded in the trace. -/
inductive CAction where
  | check (payload : Bytes)
  | perform (data : Bytes) (gasLimit : Nat)
deriving DecidableEq, Repr

/-- The chain client as seen by `_onNewBlock`; results are indexed by the
task (invocation) that awaits them.  `performUpkeep` covers the submission
together with `tx.wait()`. -/
structure CustomEnv where
  checkUpkeep : Nat → Except EthError (Bool × Bytes)
  performUpkeep : Nat → Except EthError String

/-- Shared state of one `CustomLogicJob` with a set of in-flight
`_onNewBlock` invocations: the `_isExecuting` flag, the tasks, and the
global trace of issued chain calls tagged with the issuing task. -/
structure MachineState where
  flag : Bool
  tasks : List TickTask
  trace : List (Nat × CAction)
deriving DecidableEq, Repr

/-- Run the next synchronous segment of task `i` of `_onNewBlock`:

* at `entry`: if `_isExecuting` is set the invocation returns at once
  (dropped); otherwise it issues `checkUpkeep("0x")` — the guard is not
  set here — and suspends;
* at `checking`, with the check resolved: on `(true, data)` the source sets
  `_isExecuting = true`, issues `performUpkeep(data, { gasLimit })` and
  suspends; on `(false, _)` it skips to the `finally`, which clears the
  flag; on a rejection the `catch` logs and the `finally` clears the flag;
* at `performing`, with the submission and `tx.wait()` resolved (either
  way): the `finally` clears the flag and the invocation returns. -/
def stepTask (env : CustomEnv) (opts : UpkeepOptions) (st : MachineState)
    (i : Nat) : MachineState :=
  match st.tasks[i]? with
  | none => st
  | some t =>
    match t.phase with
    | .entry =>
      if st.flag then
        { st with tasks := st.tasks.set i { t with phase := .finished true } }
      else
        { st with
            tasks := st.tasks.set i { t with phase := .checking }
            trace := st.trace ++ [(i, .check [])] }
    | .checking =>
      match env.checkUpkeep i with
      | .ok (true, data) =>
        { st with
            flag := true
            tasks := st.tasks.set i { t with phase := .performing data }
            trace := st.trace ++ [(i, .perform data opts.gasLimit)] }
      | .ok (false, _) =>
        { st with
            flag := false
            tasks := st.tasks.set i { t with phase := .finished false } }
      | .error _ =>
        { st with
            flag := false
            tasks := st.tasks.set i { t with phase := .finished false } }
    | .performing _ =>
      { st with
          flag := false
          tasks := st.tasks.set i { t with phase := .finished false } }
    | .finished _ => st

/-- Run a schedule: at each step the named task executes its next
synchronous segment. -/
def runSched (env : CustomEnv) (opts : UpkeepOptions) :
    List Nat → MachineState → MachineState
  | [], st => st
  | i :: rest, st => runSched env opts rest (stepTask env opts st i)

/-- Initial machine state for a list of delivered block numbers: the flag is
clear and every invocation is at its entry point. -/
def initMachine (blocks : List Nat) : MachineState :=
  { flag := false
    tasks := blocks.map (fun b => { blockNumber := b, phase := .entry })
    trace := [] }

/-- The number of `checkUpkeep` calls in a machine trace. -/
def checkCount (t : List (Nat × CAction)) : Nat :=
  t.countP (fun p =>
    match p.2 with
    | .check _ => true
    | _ => false)

/-- The number of `performUpkeep` submissions in a machine trace. -/
def cPerformCount (t : List (Nat × CAction)) : Nat :=
  t.countP (fun p =>
    match p.2 with
    | .perform _ _ => true
    | _ => false)

/-- Is a task inside a check-and-execute cycle (past the guard, not yet
returned)? -/
def inCycle (t : TickTask) : Bool :=
  match t.phase with
  | .checking => true
  | .performing _ => true
  | _ => false

/-- Errors thrown by `UpkeepRegistry` (`src/src/simulator/registry.ts`);
each carries what the corresponding `Error` message interpolates. -/
inductive RegError where
  | duplicate (addr : String)
  | logValidation
  | unsupportedTrigger (t : String)
  | notFound (addr : String)
deriving DecidableEq, Repr

/-- Observable job lifecycle calls made by the registry. -/
inductive RegAction where
  | startJob (addr : String)
  | stopJob (addr : String)
deriving DecidableEq, Repr

/-- The registry state: its `Map<string, IUpkeepJob>` as an
insertion-ordered association list (a jobs value is the options it was
built from). -/
structure UpkeepRegistry where
  jobs : List (String × UpkeepOptions)
deriving DecidableEq, Repr

/-- `Map.has` on the jobs table: exact string key equality. -/
def hasKeyL (l : List (String × UpkeepOptions)) (a : String) : Bool :=
  l.any (fun p => p.1 == a)

/-- `Map.get` on the jobs table. -/
def lookupKey (l : List (String × UpkeepOptions)) (a : String) :
    Option UpkeepOptions :=
  (l.find? (fun p => p.1 == a)).map (fun p => p.2)

/-- `Map.delete` on the jobs table (keys are unique, so removing the first
match is the map deletion). -/
def eraseKey (l : List (String × UpkeepOptions)) (a : String) :
    List (String × UpkeepOptions) :=
  l.eraseP (fun p => p.1 == a)

/-- `UpkeepRegistry.registerUpkeep`: reject a duplicate target address,
validate log options (the JS falsiness test on the two required strings),
reject an unsupported trigger type; otherwise store the job under the
target address and start it. -/
def registerUpkeep (st : UpkeepRegistry) (opts : UpkeepOptions) :
    Except RegError (UpkeepRegistry × List RegAction) :=
  let addr := opts.upkeepContract
  if hasKeyL st.jobs addr then
    .error (.duplicate addr)
  else if opts.triggerType == "custom" then
    .ok ({ jobs := st.jobs ++ [(addr, opts)] }, [.startJob addr])
  else if opts.triggerType == "log" then
    if opts.logEmitterAddress.isEmpty || opts.logEventSignature.isEmpty then
      .error .logValidation
    else
      .ok ({ jobs := st.jobs ++ [(addr, opts)] }, [.startJob addr])
  else
    .error (.unsupportedTrigger opts.triggerType)

/-- `UpkeepRegistry.unregisterUpkeep`: stop and remove the job registered
for the address, or throw when there is none. -/
def unregisterUpkeep (st : UpkeepRegistry) (addr : String) :
    Except RegError (UpkeepRegistry × List RegAction) :=
  match lookupKey st.jobs addr with
  | some _ => .ok ({ jobs := eraseKey st.jobs addr }, [.stopJob addr])
  | none => .error (.notFound addr)

/-- `UpkeepRegistry.getRegisteredUpkeepsCount`: `Map.size`. -/
def registeredCount (st : UpkeepRegistry) : Nat :=
  st.jobs.length

/-- ASCII lower-casing of a character code (for stating that two address
strings differ only in hexadecimal letter case). -/
def lowerCode (n : Nat) : Nat :=
  if 65 ≤ n ∧ n ≤ 90 then n + 32 else n

/-- Do two strings agree up to ASCII letter case? -/
def eqIgnoreAsciiCase (a b : String) : Bool :=
  a.toList.map (fun c => lowerCode c.toNat) ==
    b.toList.map (fun c => lowerCode c.toNat)

/-- A concrete delivered log used by the closed witnesses below. -/
def demoLog : EthLog :=
  { transactionHash := "0xAA"
    logIndex := 0
    blockNumber := 7
    blockHash := "0xBH"
    address := "0xEMITTER"
    topics := [1, 2]
    data := [5, 6] }

/-- Concrete options of a log-triggered job. -/
def demoLogOpts : UpkeepOptions :=
  { name := "demo-log"
    upkeepContract := "0xTARGET"
    triggerType := "log"
    gasLimit := 500000
    checkData := none
    logEmitterAddress := "0xEMITTER"
    logEventSignature := "MyEvent(address,uint256)"
    logTopicFilters := none }

/-- A chain client whose modern check always reports that upkeep is needed
and whose transactions confirm. -/
def dupDeliveryEnv : LogChainEnv :=
  { getBlock := fun _ => .ok { timestamp := 100 }
    checkLog := fun _ _ => .ok (true, [9])
    checkUpkeep := fun _ => .ok (false, [])
    performUpkeep := fun _ _ => .ok "0xTXHASH" }

/-- A chain client whose modern check rejects with the structured
invalid-argument code, so the probe falls back. -/
def fbDemoEnv : LogChainEnv :=
  { getBlock := fun _ => .ok { timestamp := 100 }
    checkLog := fun _ _ =>
      .error { code := some "INVALID_ARGUMENT", message := "bad tuple" }
    checkUpkeep := fun _ => .ok (true, [3])
    performUpkeep := fun _ _ => .ok "0xTXHASH" }

/-- A chain client whose modern check rejects with an unrelated revert, a
signature that must not trigger the legacy fallback. -/
def revertDemoEnv : LogChainEnv :=
  { getBlock := fun _ => .ok { timestamp := 100 }
    checkLog := fun _ _ =>
      .error { code := some "CALL_EXCEPTION", message := "execution reverted" }
    checkUpkeep := fun _ => .ok (true, [3])
    performUpkeep := fun _ _ => .ok "0xTXHASH" }

/-- Concrete options of a custom-logic job whose spec carries a static
check payload (`checkData = 0x1234`). -/
def guardOpts : UpkeepOptions :=
  { name := "demo-custom"
    upkeepContract := "0xTARGET"
    triggerType := "custom"
    gasLimit := 321
    checkData := some [18, 52]
    logEmitterAddress := ""
    logEventSignature := ""
    logTopicFilters := none }

/-- A chain client whose `checkUpkeep` reports `(true, 0xAB)` for every
tick and whose transactions confirm. -/
def eagerEnv : CustomEnv :=
  { checkUpkeep := fun _ => .ok (true, [171])
    performUpkeep := fun _ => .ok "0xTXHASH" }

/-- A chain client whose `checkUpkeep` reports `(false, 0x)` for every
tick. -/
def idleEnv : CustomEnv :=
  { checkUpkeep := fun _ => .ok (false, [])
    performUpkeep := fun _ => .ok "0xTXHASH" }

/-- A concrete stand-in for the external `ethers.utils.id` hash. -/
def demoIdFn (s : String) : Nat :=
  s.length

/-- `demoLogOpts` with one configured indexed-field filter. -/
def topicFilterOpts : UpkeepOptions :=
  { demoLogOpts with logTopicFilters := some [some 7, none, none] }

/-- A registry holding one job, for the closed witnesses below. -/
def demoRegistry : UpkeepRegistry :=
  { jobs := [("0xTARGET", guardOpts)] }

/-- The empty registry. -/
def emptyRegistry : UpkeepRegistry :=
  { jobs := [] }

/-- `guardOpts` re-targeted at an upper-case-lettered address. -/
def upperCaseOpts : UpkeepOptions :=
  { guardOpts with upkeepContract := "0xAB" }

/-- `guardOpts` re-targeted at the lower-case spelling of the same
address. -/
def lowerCaseOpts : UpkeepOptions :=
  { guardOpts with upkeepContract := "0xab" }

/-- Helper: in a jobs table with unique keys that contains an address,
exactly one entry carries that address. -/
theorem countKey_eq_one_of_nodup (l : List (String × UpkeepOptions)) (a : String)
    (hnd : (l.map Prod.fst).Nodup) (h : hasKeyL l a = true) :
    l.countP (fun p => p.1 == a) = 1 := by
  induction l with
  | nil => simp [hasKeyL] at h
  | cons x t ih =>
    rw [List.map_cons, List.nodup_cons] at hnd
    by_cases hx : x.1 = a
    · have h0 : t.countP (fun p => p.1 == a) = 0 := by
        rw [List.countP_eq_zero]
        intro p hp
        simp only [beq_iff_eq]
        intro hpa
        apply hnd.1
        rw [hx, ← hpa]
        exact List.mem_map_of_mem Prod.fst hp
      rw [List.countP_cons, h0]
      simp [hx]
    · have ht : hasKeyL t a = true := by
        rw [hasKeyL, List.any_cons, Bool.or_eq_true] at h
        rcases h with h | h
        · exact absurd (by simpa using h) hx
        · exact h
      rw [List.countP_cons, ih hnd.2 ht]
      simp [hx]

/-- Claim C1: the spec promises that delivering the same
`(transactionHash, logIndex)` event twice yields at most one execute
call, via a `processedEventIds` dedup set.  The cited handler
`LogTriggerJob._onLogDetected` keeps no such set: delivering the identical
log twice submits two `performUpkeep` transactions, one per delivery. -/
theorem c1_duplicate_delivery_executes_twice :
    performCount (runDeliveries dupDeliveryEnv demoLogOpts [demoLog, demoLog]) = 2 :=
  rfl

/-- Claim C2: the spec promises that no two check-and-execute cycles of an
interval job overlap, the `executing` flag being set immediately before
the check call.  In the cited `CustomLogicJob._onNewBlock` the flag is set
only after the check resolves with `upkeepNeeded`: under the schedule
`[0, 1]` two ticks both pass the guard and sit in their check phase at
the same time, and continuing the schedule both submit a `performUpkeep`
transaction — two overlapping cycles. -/
theorem c2_overlapping_cycles_schedule :
    (runSched eagerEnv guardOpts [0, 1] (initMachine [5, 6])).tasks.countP inCycle = 2 ∧
      cPerformCount
        (runSched eagerEnv guardOpts [0, 1, 0, 1] (initMachine [5, 6])).trace = 2 :=
  ⟨rfl, rfl⟩

/-- Claim C3: the spec promises a non-decreasing `lastProcessedBlock`
cursor such that a tick whose height has not advanced performs no check.
The cited `CustomLogicJob` has no such cursor — the delivered block number
is used only for logging — so two ticks carrying the same height 5, run
to completion one after the other, both issue a check call. -/
theorem c3_same_height_rechecked :
    checkCount (runSched idleEnv guardOpts [0, 0, 1, 1] (initMachine [5, 5])).trace = 2 :=
  rfl

/-- Claim C4: when the modern `checkLog` call fails with the
unknown-function signature (structured `INVALID_ARGUMENT` code or the
matching message), the handler makes exactly one legacy `checkUpkeep`
call, and its payload is the ABI encoding of `(topics as bytes32[],
data as bytes)` — whatever the legacy call and the subsequent perform
then do. -/
theorem c4_fallback_single_legacy_call (env : LogChainEnv) (opts : UpkeepOptions)
    (log : EthLog) (blk : EthBlock) (e : EthError)
    (hb : env.getBlock log.blockNumber = .ok blk)
    (hc : env.checkLog (mkLogStruct log blk) [] = .error e)
    (he : isUnknownFunctionError e = true) :
    legacyPayloads (onLogDetected env opts log).1 =
      [abiEncodeTopicsData log.topics log.data] := by
  have hp : probeModern env log =
      ([.getBlock log.blockNumber, .checkLog (mkLogStruct log blk) []], .error e) := by
    unfold probeModern
    rw [hb]
    dsimp only
    rw [hc]
  have hr : runCheckPhase env log =
      ([.getBlock log.blockNumber, .checkLog (mkLogStruct log blk) [],
          .checkUpkeep (abiEncodeTopicsData log.topics log.data)],
        env.checkUpkeep (abiEncodeTopicsData log.topics log.data)) := by
    unfold runCheckPhase
    rw [hp]
    simp [he]
  unfold onLogDetected
  rw [hr]
  cases hcu : env.checkUpkeep (abiEncodeTopicsData log.topics log.data) with
  | error e2 => simp [legacyPayloads]
  | ok r =>
    obtain ⟨needed, data⟩ := r
    cases needed
    · simp [legacyPayloads]
    · cases hpu : env.performUpkeep data opts.gasLimit with
      | ok s => simp [hpu, legacyPayloads]
      | error e3 => simp [hpu, legacyPayloads]

/-- Witness for C4 at a concrete chain client whose `checkLog` rejects
with the structured invalid-argument code. -/
theorem c4_fallback_witness :
    legacyPayloads (onLogDetected fbDemoEnv demoLogOpts demoLog).1 =
      [abiEncodeTopicsData demoLog.topics demoLog.data] :=
  c4_fallback_single_legacy_call fbDemoEnv demoLogOpts demoLog
    { timestamp := 100 }
    { code := some "INVALID_ARGUMENT", message := "bad tuple" }
    rfl rfl (by decide)

/-- Claim C5: a modern-check failure whose signature does not match the
unknown-function pattern triggers no legacy fallback: the handler makes no
`checkUpkeep` call and no `performUpkeep` submission, the error is caught
at the per-event boundary and logged (`some e`), and the handler returns
normally. -/
theorem c5_non_matching_error_no_fallback (env : LogChainEnv) (opts : UpkeepOptions)
    (log : EthLog) (blk : EthBlock) (e : EthError)
    (hb : env.getBlock log.blockNumber = .ok blk)
    (hc : env.checkLog (mkLogStruct log blk) [] = .error e)
    (he : isUnknownFunctionError e = false) :
    onLogDetected env opts log =
      ([.getBlock log.blockNumber, .checkLog (mkLogStruct log blk) []], some e) := by
  have hp : probeModern env log =
      ([.getBlock log.blockNumber, .checkLog (mkLogStruct log blk) []], .error e) := by
    unfold probeModern
    rw [hb]
    dsimp only
    rw [hc]
  unfold onLogDetected runCheckPhase
  rw [hp]
  simp [he]

/-- Witness for C5 at a concrete chain client whose `checkLog` rejects
with an ordinary revert. -/
theorem c5_witness :
    onLogDetected revertDemoEnv demoLogOpts demoLog =
      ([.getBlock demoLog.blockNumber,
          .checkLog (mkLogStruct demoLog { timestamp := 100 }) []],
        some { code := some "CALL_EXCEPTION", message := "execution reverted" }) :=
  c5_non_matching_error_no_fallback revertDemoEnv demoLogOpts demoLog
    { timestamp := 100 }
    { code := some "CALL_EXCEPTION", message := "execution reverted" }
    rfl rfl (by decide)

/-- Claim C6: registering a spec whose target address is already in the
jobs table throws the duplicate-job error before any mutation (the
embedding returns no new state), and — the table keys being unique —
exactly one job remains registered for that address. -/
theorem c6_duplicate_register_rejected (st : UpkeepRegistry) (opts : UpkeepOptions)
    (hnd : (st.jobs.map Prod.fst).Nodup)
    (h : hasKeyL st.jobs opts.upkeepContract = true) :
    registerUpkeep st opts = .error (.duplicate opts.upkeepContract) ∧
      st.jobs.countP (fun p => p.1 == opts.upkeepContract) = 1 := by
  refine ⟨?_, countKey_eq_one_of_nodup _ _ hnd h⟩
  unfold registerUpkeep
  simp [h]

/-- Witness for C6 on a one-job registry. -/
theorem c6_witness :
    registerUpkeep demoRegistry guardOpts =
        .error (.duplicate guardOpts.upkeepContract) ∧
      demoRegistry.jobs.countP (fun p => p.1 == guardOpts.upkeepContract) = 1 :=
  c6_duplicate_register_rejected demoRegistry guardOpts (by decide) (by decide)

/-- Claim C7: unregistering an address with no job throws the not-found
error (no new state, so table and count are untouched); unregistering a
registered address stops that job and removes its entry, decreasing the
count by one. -/
theorem c7_unregister_behavior (st : UpkeepRegistry) (a : String) :
    (lookupKey st.jobs a = none →
        unregisterUpkeep st a = .error (.notFound a)) ∧
      (∀ o, lookupKey st.jobs a = some o →
        unregisterUpkeep st a =
            .ok ({ jobs := eraseKey st.jobs a }, [.stopJob a]) ∧
          registeredCount { jobs := eraseKey st.jobs a } + 1 =
            registeredCount st) := by
  constructor
  · intro h
    unfold unregisterUpkeep
    rw [h]
  · intro o h
    refine ⟨?_, ?_⟩
    · unfold unregisterUpkeep
      rw [h]
    · obtain ⟨p, hpmem, hpa⟩ : ∃ p ∈ st.jobs, (p.1 == a) = true := by
        unfold lookupKey at h
        cases hf : st.jobs.find? (fun p => p.1 == a) with
        | none => rw [hf] at h; simp at h
        | some q =>
          refine ⟨q, List.mem_of_find?_eq_some hf, ?_⟩
          have h2 := List.find?_some hf
          simpa using h2
      unfold registeredCount eraseKey
      exact List.length_eraseP_add_one hpmem hpa

/-- Witness for C7: a missing address is rejected and a present address is
stopped and removed, on the one-job registry. -/
theorem c7_witness :
    unregisterUpkeep demoRegistry "0xMISSING" = .error (.notFound "0xMISSING") ∧
      (unregisterUpkeep demoRegistry "0xTARGET" =
          .ok ({ jobs := eraseKey demoRegistry.jobs "0xTARGET" },
            [.stopJob "0xTARGET"]) ∧
        registeredCount { jobs := eraseKey demoRegistry.jobs "0xTARGET" } + 1 =
          registeredCount demoRegistry) :=
  ⟨(c7_unregister_behavior demoRegistry "0xMISSING").1 (by decide),
    (c7_unregister_behavior demoRegistry "0xTARGET").2 guardOpts (by decide)⟩

/-- Claim C8 counterexample: with one configured indexed-field filter the
subscription filter built by the `LogTriggerJob` constructor is not the
filter the claim describes (signature hash plus the configured topic
slots): the constructor emits a single topic slot and ignores
`logTopicFilters`. -/
theorem c8_filter_counterexample :
    mkEventFilter demoIdFn topicFilterOpts ≠ specEventFilter demoIdFn topicFilterOpts := by
  decide

/-- Claim C8 as amended: the subscription filter has the configured
emitter as its address and exactly one topic slot, the hash of the exact
event signature string; the spec's configured indexed-field filters do not
enter the filter at all. -/
theorem c8_filter_amended (idFn : String → Nat) (opts : UpkeepOptions) :
    mkEventFilter idFn opts =
        { address := opts.logEmitterAddress
          topics := [some (idFn opts.logEventSignature)] } ∧
      ∀ f, mkEventFilter idFn { opts with logTopicFilters := f } =
        mkEventFilter idFn opts :=
  ⟨rfl, fun _ => rfl⟩

/-- Claim C9: the spec promises that the check call carries the job's
static check payload.  The cited `CustomLogicJob._onNewBlock` calls
`checkUpkeep("0x")` unconditionally: with `checkData = 0x1234` configured,
the single tick's trace shows the check issued with the empty payload
(and, as the claim also states, exactly one perform with the data the
check returned). -/
theorem c9_checkdata_ignored :
    (runSched eagerEnv guardOpts [0, 0, 0] (initMachine [5])).trace =
        [(0, .check []), (0, .perform [171] guardOpts.gasLimit)] ∧
      guardOpts.checkData = some [18, 52] :=
  ⟨rfl, rfl⟩

/-- Claim C10: the registry keys jobs by the exact address string with no
normalization, so two specs whose target addresses differ only in ASCII
letter case both register, leaving two active jobs. -/
theorem c10_case_sensitive_addresses (st : UpkeepRegistry) (o1 o2 : UpkeepOptions)
    (hne : o1.upkeepContract ≠ o2.upkeepContract)
    (_hcase : eqIgnoreAsciiCase o1.upkeepContract o2.upkeepContract = true)
    (h1 : hasKeyL st.jobs o1.upkeepContract = false)
    (h2 : hasKeyL st.jobs o2.upkeepContract = false)
    (t1 : o1.triggerType = "custom")
    (t2 : o2.triggerType = "custom") :
    ∃ st1 st2 : UpkeepRegistry,
      registerUpkeep st o1 = .ok (st1, [.startJob o1.upkeepContract]) ∧
        registerUpkeep st1 o2 = .ok (st2, [.startJob o2.upkeepContract]) ∧
        hasKeyL st2.jobs o1.upkeepContract = true ∧
        hasKeyL st2.jobs o2.upkeepContract = true ∧
        registeredCount st2 = registeredCount st + 2 := by
  refine ⟨{ jobs := st.jobs ++ [(o1.upkeepContract, o1)] },
    { jobs := st.jobs ++ [(o1.upkeepContract, o1), (o2.upkeepContract, o2)] },
    ?_, ?_, ?_, ?_, ?_⟩
  · unfold registerUpkeep
    simp [h1, t1]
  · have hk : hasKeyL (st.jobs ++ [(o1.upkeepContract, o1)]) o2.upkeepContract = false := by
      unfold hasKeyL at h2 ⊢
      simp only [List.any_append, List.any_cons, List.any_nil, h2, Bool.false_or,
        Bool.or_false, beq_iff_eq]
      simpa using hne
    unfold registerUpkeep
    simp [hk, t2]
  · unfold hasKeyL
    simp [List.any_append]
  · unfold hasKeyL
    simp [List.any_append]
  · unfold registeredCount
    simp

/-- Witness for C10: the addresses `0xAB` and `0xab`, case-variants of one
another, both register from the empty registry. -/
theorem c10_witness :
    ∃ st1 st2 : UpkeepRegistry,
      registerUpkeep emptyRegistry upperCaseOpts =
          .ok (st1, [.startJob upperCaseOpts.upkeepContract]) ∧
        registerUpkeep st1 lowerCaseOpts =
          .ok (st2, [.startJob lowerCaseOpts.upkeepContract]) ∧
        hasKeyL st2.jobs upperCaseOpts.upkeepContract = true ∧
        hasKeyL st2.jobs lowerCaseOpts.upkeepContract = true ∧
        registeredCount st2 = registeredCount emptyRegistry + 2 :=
  c10_case_sensitive_addresses emptyRegistry upperCaseOpts lowerCaseOpts
    (by decide) (by decide) (by decide) (by decide) rfl rfl
